import Mathlib

/-!
Verification of the `Vsag` benchmark adapter
(`src/workloads/ann-benchmarks/ann_benchmarks/algorithms/vsag/module.py`).

Python floating-point values are idealised as real numbers (`ℝ`); vectors
(numpy rows) are lists of reals and a 2-D numpy array is a list of rows.
In-place mutation of a numpy array is modelled by returning the post-state
of the array.  The JSON documents the adapter serialises are modelled by an
inductive `JsonVal`.  The native `pyvsag.Index` object is not part of the
repository slice; what the adapter hands to it (config JSON, flattened
vectors, ids, counts) is recorded in a `BuiltIndex` record, and its
`knn_search` entry point is treated as an explicit function argument.
-/

set_option maxHeartbeats 1000000

open scoped Classical

/-- JSON values as produced by `json.dumps` on the adapter's dicts. -/
inductive JsonVal where
  | str (s : String)
  | int (n : Int)
  | obj (fields : List (String × JsonVal))

/-- Lookup of a top-level key in a JSON object. -/
def jsonGet (j : JsonVal) (key : String) : Option JsonVal :=
  match j with
  | .obj fields => fields.lookup key
  | _ => none

/-- The list of top-level keys of a JSON object. -/
def jsonKeys (j : JsonVal) : List String :=
  match j with
  | .obj fields => fields.map Prod.fst
  | _ => []

/-- The `self._params` dict built by `Vsag.__init__`. -/
structure Params where
  M : Int
  efc : Int
  sq : Int
  a : ℚ
  rs : Int
deriving Repr, DecidableEq

/-- The `method_param` dict: each key that `__init__` may look up is an
optional entry; a missing entry makes the subscript raise `KeyError`. -/
structure MethodParam where
  M : Option Int
  ef_construction : Option Int
  use_int8 : Option Int
  alpha : Option ℚ
  rs : Option Int

/-- Python exceptions surfaced by the adapter's dict subscripts. -/
inductive PyError where
  | keyError
deriving DecidableEq

/-- Dict subscript: `d[k]` returns the value or raises `KeyError`. -/
def dictGet {α : Type} (o : Option α) : Except PyError α :=
  match o with
  | some v => Except.ok v
  | none => Except.error PyError.keyError

/-- The metric-translation dict `{"euclidean": "l2", "angular": "ip"}`. -/
def metricMap (metric : String) : Option String :=
  if metric = "euclidean" then some "l2"
  else if metric = "angular" then some "ip"
  else none

/-- Squared L2 norm of a row: the sum of the squares of its components. -/
def norm2 (v : List ℝ) : ℝ := (v.map (fun x => x * x)).sum

/-- The L2 norm `np.linalg.norm` of a row. -/
noncomputable def l2norm (v : List ℝ) : ℝ := Real.sqrt (norm2 v)

/-- What the adapter hands to `pyvsag.Index(...)` and `index.build(...)`. -/
structure BuiltIndex where
  indexType : String
  config : JsonVal
  vectors : List ℝ
  ids : List Int
  num_elements : Nat
  dim : Nat

/-- The adapter object: its attributes after `__init__` (and, once `fit`
has run, the built index in `_index`). -/
structure Vsag where
  _metric : String
  _params : Params
  name : String
  _ef : Int
  _index : Option BuiltIndex

/-- Embedding of `Vsag.__init__(self, metric, dim, method_param)`.
Dict subscripts that miss raise `KeyError`; `dim` is accepted but unused,
as in the source. -/
def Vsag.init (metric : String) (dim : Int) (method_param : MethodParam) :
    Except PyError Vsag := do
  let m ← dictGet (metricMap metric)
  let M ← dictGet method_param.M
  let efc ← dictGet method_param.ef_construction
  let use_int8 ← dictGet method_param.use_int8
  let sq : Int := if use_int8 ≠ 0 then use_int8 else -1
  let a : ℚ :=
    match method_param.alpha with
    | some a => a
    | none => 1
  let rs : Int :=
    match method_param.rs with
    | some r => r
    | none => 1
  let params : Params := { M := M, efc := efc, sq := sq, a := a, rs := rs }
  let _ := dim
  return { _metric := m
           _params := params
           name := "vsag (" ++ reprStr params ++ ")"
           _ef := 0
           _index := none }

/-- The replacement pass `X[np.linalg.norm(X, axis=1) == 0] = 1.0/np.sqrt(X.shape[1])`
acting on one row: a row of L2 norm zero has every component overwritten by
the scalar `1/sqrt(dim)`; other rows are untouched. -/
noncomputable def zeroFix (dim : Nat) (row : List ℝ) : List ℝ :=
  if l2norm row = 0 then row.map (fun _ => 1 / Real.sqrt dim) else row

/-- The division pass `X /= np.linalg.norm(X, axis=1)[:, np.newaxis]` acting
on one row: every component is divided by the row's L2 norm. -/
noncomputable def normalizeRow (row : List ℝ) : List ℝ :=
  row.map (fun x => x / l2norm row)

/-- The in-place preprocessing `fit` applies to `X`: under the `ip` metric,
first the replacement pass over all rows, then the division pass over all
rows; under any other metric `X` is untouched. -/
noncomputable def fitTransform (metric : String) (dim : Nat) (X : List (List ℝ)) :
    List (List ℝ) :=
  if metric = "ip" then (X.map (zeroFix dim)).map normalizeRow else X

/-- The `index_params` dict that `fit` serialises and passes to
`pyvsag.Index("hnsw", json.dumps(index_params))`. -/
def Vsag.index_params (self : Vsag) (dim : Nat) : JsonVal :=
  .obj [("dtype", .str "float32"),
        ("metric_type", .str (if self._metric = "l2" then "l2" else "ip")),
        ("dim", .int (Int.ofNat dim)),
        ("hnsw", .obj [("max_degree", .int self._params.M),
                       ("ef_construction", .int self._params.efc)])]

/-- The index object after `fit`: the config given to `pyvsag.Index`, and
the arguments of the `build` call (row-major flattened vectors, ids
`np.arange(len(X))`, `num_elements=len(X)`, `dim=len(X[0])`). -/
noncomputable def Vsag.builtOf (self : Vsag) (X : List (List ℝ)) : BuiltIndex :=
  let dim := (X.headD []).length
  let X2 := fitTransform self._metric dim X
  { indexType := "hnsw"
    config := self.index_params dim
    vectors := X2.flatten
    ids := (List.range X2.length).map Int.ofNat
    num_elements := X2.length
    dim := dim }

/-- Embedding of `Vsag.fit(self, X)`: returns the post-state of the adapter
(with `_index` now set) and the post-state of the caller's array `X`,
which the source mutates in place under the `ip` metric. -/
noncomputable def Vsag.fit (self : Vsag) (X : List (List ℝ)) :
    Vsag × List (List ℝ) :=
  let dim := (X.headD []).length
  let X2 := fitTransform self._metric dim X
  ({ self with _index := some (self.builtOf X) }, X2)

/-- Embedding of `Vsag.set_query_arguments(self, ef)`. -/
def Vsag.set_query_arguments (self : Vsag) (ef : Int) : Vsag :=
  { self with
    _ef := ef
    name := "efs_" ++ toString ef ++ "_" ++ reprStr self._params }

/-- The `search_params` dict that `query` serialises and hands to
`knn_search`, holding the adapter's current `_ef` as `hnsw.ef_search`. -/
def search_params (ef : Int) : JsonVal :=
  .obj [("hnsw", .obj [("ef_search", .int ef)])]

/-- The vector `query` hands to `knn_search`: `v / length`, where `length`
is the L2 norm of `v` under the `ip` metric (1 otherwise), reset to 1 when
it is 0. -/
noncomputable def Vsag.queryVec (self : Vsag) (v : List ℝ) : List ℝ :=
  let length : ℝ := if self._metric = "ip" then l2norm v else 1
  let length : ℝ := if length = 0 then 1 else length
  v.map (fun x => x / length)

/-- Embedding of `Vsag.query(self, v, n)`: the index's `knn_search` is the
native pyvsag entry point, passed here as an explicit function from
(query vector, k, serialised parameters) to an (ids, distances) pair.  The
adapter returns the ids unchanged; the returned `Vsag` is the post-state of
the adapter (the source mutates no attribute). -/
noncomputable def Vsag.query
    (knn : List ℝ → Nat → JsonVal → List Int × List ℝ)
    (self : Vsag) (v : List ℝ) (n : Nat) : List Int × Vsag :=
  let sp := search_params self._ef
  let query_vec := self.queryVec v
  let ids := (knn query_vec n sp).1
  (ids, self)

/-- Modelled from the spec: `pyvsag.Index.knn_search` is native library code
absent from the repository slice (`src/` holds only the adapter and a
packaging script).  The spec states that `knn_search` on an empty index
returns an empty sequence rather than an error; the behaviour on a
non-empty index is left abstract as `core`. -/
def specKnnSearch
    (core : BuiltIndex → List ℝ → Nat → JsonVal → List Int × List ℝ)
    (idx : BuiltIndex) (v : List ℝ) (k : Nat) (p : JsonVal) :
    List Int × List ℝ :=
  if idx.num_elements = 0 then ([], []) else core idx v k p

lemma norm2_nil : norm2 [] = 0 := rfl

lemma norm2_cons (x : ℝ) (xs : List ℝ) :
    norm2 (x :: xs) = x * x + norm2 xs := by
  simp [norm2]

lemma norm2_nonneg (v : List ℝ) : 0 ≤ norm2 v := by
  induction v with
  | nil => simp [norm2_nil]
  | cons x xs ih =>
      rw [norm2_cons]
      exact add_nonneg (mul_self_nonneg x) ih

lemma l2norm_eq_zero_iff (v : List ℝ) : l2norm v = 0 ↔ norm2 v = 0 := by
  unfold l2norm
  exact Real.sqrt_eq_zero (norm2_nonneg v)

lemma mul_self_l2norm (v : List ℝ) : l2norm v * l2norm v = norm2 v :=
  Real.mul_self_sqrt (norm2_nonneg v)

lemma norm2_map_div (v : List ℝ) (c : ℝ) :
    norm2 (v.map (fun x => x / c)) = norm2 v / (c * c) := by
  induction v with
  | nil => simp [norm2_nil]
  | cons x xs ih =>
      simp only [List.map_cons, norm2_cons, ih, div_mul_div_comm, add_div]

lemma norm2_map_const (v : List ℝ) (c : ℝ) :
    norm2 (v.map (fun _ => c)) = v.length * (c * c) := by
  induction v with
  | nil => simp [norm2_nil]
  | cons x xs ih =>
      simp only [List.map_cons, norm2_cons, ih, List.length_cons]
      push_cast
      ring

lemma l2norm_normalizeRow (v : List ℝ) (h : l2norm v ≠ 0) :
    l2norm (normalizeRow v) = 1 := by
  have hn2 : norm2 v ≠ 0 := fun h0 => h ((l2norm_eq_zero_iff v).mpr h0)
  have : norm2 (normalizeRow v) = 1 := by
    unfold normalizeRow
    rw [norm2_map_div, mul_self_l2norm, div_self hn2]
  unfold l2norm
  rw [this, Real.sqrt_one]

lemma l2norm_zeroFix (dim : Nat) (r : List ℝ)
    (hlen : r.length = dim) (hdim : 0 < dim) :
    l2norm (zeroFix dim r) ≠ 0 := by
  unfold zeroFix
  by_cases h : l2norm r = 0
  · rw [if_pos h]
    have hd : (dim : ℝ) ≠ 0 := Nat.cast_ne_zero.mpr (Nat.pos_iff_ne_zero.mp hdim)
    have hdge : (0 : ℝ) ≤ (dim : ℝ) := Nat.cast_nonneg dim
    have hsq : Real.sqrt dim * Real.sqrt dim = dim := Real.mul_self_sqrt hdge
    have : norm2 (r.map (fun _ => 1 / Real.sqrt (dim : ℝ))) = 1 := by
      rw [norm2_map_const, hlen, one_div_mul_one_div, hsq, mul_one_div, div_self hd]
    unfold l2norm
    rw [this, Real.sqrt_one]
    exact one_ne_zero
  · rw [if_neg h]
    exact h

lemma fitTransform_length (metric : String) (dim : Nat) (X : List (List ℝ)) :
    (fitTransform metric dim X).length = X.length := by
  unfold fitTransform
  split <;> simp

/-- A concrete `method_param` holding every mandatory key. -/
def mpFull : MethodParam :=
  { M := some 16, ef_construction := some 200, use_int8 := some 0,
    alpha := none, rs := none }

/-- The `_params` dict `Vsag.init` builds from `mpFull`. -/
def paramsFull : Params := { M := 16, efc := 200, sq := -1, a := 1, rs := 1 }

/-- The adapter state produced by `Vsag.init "euclidean" 10 mpFull`. -/
def vsagL2 : Vsag :=
  { _metric := "l2", _params := paramsFull,
    name := "vsag (" ++ reprStr paramsFull ++ ")", _ef := 0, _index := none }

/-- A concrete adapter state under the `ip` metric. -/
def vsagIp : Vsag :=
  { _metric := "ip", _params := paramsFull, name := "w", _ef := 7,
    _index := none }

lemma init_euclidean_mpFull : Vsag.init "euclidean" 10 mpFull = Except.ok vsagL2 := rfl

/-- Claim C4: the external ids `fit` passes to the index's `build` are
exactly `np.arange(len(X))`, i.e. the integers 0, 1, …, n-1 in insertion
order — dense, zero-based, contiguous, and pairwise distinct. -/
theorem fit_build_ids (s : Vsag) (X : List (List ℝ)) :
    (s.fit X).1._index = some (s.builtOf X) ∧
    (s.builtOf X).ids = (List.range X.length).map Int.ofNat ∧
    (s.builtOf X).ids.length = X.length ∧
    (s.builtOf X).num_elements = X.length ∧
    (s.builtOf X).ids.Nodup := by
  have hlen : (fitTransform s._metric (X.headD []).length X).length = X.length :=
    fitTransform_length _ _ _
  refine ⟨rfl, ?_, ?_, ?_, ?_⟩
  · show (List.range (fitTransform s._metric (X.headD []).length X).length).map
        Int.ofNat = (List.range X.length).map Int.ofNat
    rw [hlen]
  · show ((List.range (fitTransform s._metric (X.headD []).length X).length).map
        Int.ofNat).length = X.length
    rw [List.length_map, List.length_range, hlen]
  · exact hlen
  · exact List.Nodup.map (fun a b hab => Int.ofNat.inj hab) (List.nodup_range _)

/-- Claim C6: configuration attributes are never reassigned after `fit`:
`set_query_arguments` changes only `_ef` and `name` (leaving `_metric`,
`_params` and `_index` untouched), and `query` leaves the whole adapter
state unchanged. -/
theorem config_attrs_frame (s : Vsag) (ef : Int)
    (knn : List ℝ → Nat → JsonVal → List Int × List ℝ)
    (v : List ℝ) (n : Nat) :
    (s.set_query_arguments ef)._metric = s._metric ∧
    (s.set_query_arguments ef)._params = s._params ∧
    (s.set_query_arguments ef)._index = s._index ∧
    (s.set_query_arguments ef)._ef = ef ∧
    (Vsag.query knn s v n).2 = s :=
  ⟨rfl, rfl, rfl, rfl, rfl⟩

/-- Claim C7: `query` is deterministic — with the index's `knn_search` a
function of its inputs, two calls with identical arguments in identical
adapter state return identical ids (and identical post-state). -/
theorem query_deterministic
    (knn1 knn2 : List ℝ → Nat → JsonVal → List Int × List ℝ)
    (h : ∀ qv k p, knn1 qv k p = knn2 qv k p)
    (s : Vsag) (v : List ℝ) (n : Nat) :
    Vsag.query knn1 s v n = Vsag.query knn2 s v n := by
  simp only [Vsag.query, h]

/-- A `knn_search` stub returning no results. -/
def knnEmpty : List ℝ → Nat → JsonVal → List Int × List ℝ :=
  fun _ _ _ => ([], [])

/-- A second, syntactically different stub with the same behaviour. -/
def knnEmpty2 : List ℝ → Nat → JsonVal → List Int × List ℝ :=
  fun _ _ _ => ([] ++ [], [])

/-- Witness for C7 at a concrete state, query vector and k. -/
theorem query_deterministic_witness :
    Vsag.query knnEmpty vsagIp [1, 2] 3 = Vsag.query knnEmpty2 vsagIp [1, 2] 3 :=
  query_deterministic knnEmpty knnEmpty2 (fun _ _ _ => rfl) vsagIp [1, 2] 3

/-- Claim C8: `knn_search` on an empty index returns an empty sequence,
not an error, and the adapter's `query` propagates that empty id list
unchanged to its caller. -/
theorem query_empty_index
    (core : BuiltIndex → List ℝ → Nat → JsonVal → List Int × List ℝ)
    (idx : BuiltIndex) (h : idx.num_elements = 0)
    (s : Vsag) (v : List ℝ) (n : Nat) :
    specKnnSearch core idx (s.queryVec v) n (search_params s._ef) = ([], []) ∧
    (Vsag.query (specKnnSearch core idx) s v n).1 = [] := by
  have hk : ∀ qv k p, specKnnSearch core idx qv k p = ([], []) := by
    intro qv k p
    unfold specKnnSearch
    rw [if_pos h]
  refine ⟨hk _ _ _, ?_⟩
  simp only [Vsag.query, hk]

/-- A built-index record holding no elements: the empty index. -/
def emptyIdx : BuiltIndex :=
  { indexType := "hnsw", config := .obj [], vectors := [], ids := [],
    num_elements := 0, dim := 4 }

/-- An arbitrary nonempty-index behaviour for the abstract core. -/
def coreStub : BuiltIndex → List ℝ → Nat → JsonVal → List Int × List ℝ :=
  fun _ _ _ _ => ([1], [0])

/-- Witness for C8 at the concrete empty index. -/
theorem query_empty_index_witness :
    (Vsag.query (specKnnSearch coreStub emptyIdx) vsagIp [1, 2] 5).1 = [] :=
  (query_empty_index coreStub emptyIdx rfl vsagIp [1, 2] 5).2

/-- Claim C2: under the `ip` metric, every row of the matrix `fit` hands to
the index's `build` has unit L2 norm — rows of norm zero are first replaced
by the constant row `1/sqrt(dim)` and then every row is divided by its own
L2 norm.  The matrix flattened into the `build` call is exactly the
post-state of `X`. -/
theorem fit_ip_rows_unit (s : Vsag) (X : List (List ℝ)) (dim : Nat)
    (hm : s._metric = "ip") (hdim : 0 < dim)
    (hrows : ∀ r ∈ X, r.length = dim) (hne : X ≠ []) :
    (s.builtOf X).vectors = ((s.fit X).2).flatten ∧
    ∀ r ∈ (s.fit X).2, l2norm r = 1 := by
  refine ⟨rfl, ?_⟩
  intro r hr
  have hdim0 : (X.headD []).length = dim := by
    cases X with
    | nil => exact absurd rfl hne
    | cons x xs => exact hrows x (List.mem_cons_self x xs)
  have hX2 : (s.fit X).2 = (X.map (zeroFix dim)).map normalizeRow := by
    show fitTransform s._metric (X.headD []).length X = _
    unfold fitTransform
    rw [hdim0, if_pos hm]
  rw [hX2] at hr
  obtain ⟨r1, hr1, hr1e⟩ := List.mem_map.mp hr
  obtain ⟨r0, hr0, hr0e⟩ := List.mem_map.mp hr1
  subst hr1e
  subst hr0e
  exact l2norm_normalizeRow _ (l2norm_zeroFix dim r0 (hrows r0 hr0) hdim)

/-- Witness for C2 at the one-row zero matrix of dimension 2. -/
theorem fit_ip_rows_unit_witness :
    l2norm (normalizeRow (zeroFix 2 [(0 : ℝ), 0])) = 1 :=
  (fit_ip_rows_unit vsagIp [[0, 0]] 2 rfl (by decide) (by simp) (by simp)).2
    _ (by simp [Vsag.fit, fitTransform, vsagIp])

/-- Counterexample to claim C1 as stated: under the `ip` metric the zero
query vector is handed to `knn_search` unchanged — `query` resets a zero
norm to 1 before dividing — so the vector passed has L2 norm 0 and is not
a unit vector. -/
theorem queryVec_zero_counterexample :
    Vsag.queryVec vsagIp [0, 0] = [0, 0] ∧
    l2norm (Vsag.queryVec vsagIp [0, 0]) = 0 := by
  have h0 : l2norm [(0 : ℝ), 0] = 0 := by
    unfold l2norm
    have h2 : norm2 [(0 : ℝ), 0] = 0 := by simp [norm2]
    rw [h2, Real.sqrt_zero]
  have h1 : Vsag.queryVec vsagIp [0, 0] = [0, 0] := by
    unfold Vsag.queryVec
    simp [vsagIp, h0]
  exact ⟨h1, by rw [h1]; exact h0⟩

/-- Claim C1 (amended): under the `ip` metric, a query vector of nonzero
L2 norm is passed to `knn_search` normalized to unit norm; a zero query
vector is passed unchanged (its norm stays 0), not replaced by a unit
vector. -/
theorem queryVec_normalizes (s : Vsag) (v : List ℝ) (hm : s._metric = "ip") :
    (l2norm v ≠ 0 →
      s.queryVec v = normalizeRow v ∧ l2norm (s.queryVec v) = 1) ∧
    (l2norm v = 0 → s.queryVec v = v) := by
  constructor
  · intro hv
    have he : s.queryVec v = normalizeRow v := by
      unfold Vsag.queryVec
      rw [hm]
      simp [hv, normalizeRow]
    exact ⟨he, he ▸ l2norm_normalizeRow v hv⟩
  · intro hv
    unfold Vsag.queryVec
    rw [hm]
    simp [hv]

/-- Witness for the amended C1 at v = [3, 4], whose norm is 5. -/
theorem queryVec_normalizes_witness :
    Vsag.queryVec vsagIp [3, 4] = normalizeRow [3, 4] ∧
    l2norm (Vsag.queryVec vsagIp [3, 4]) = 1 :=
  (queryVec_normalizes vsagIp [3, 4] rfl).1 (by
    unfold l2norm
    have h2 : norm2 [(3 : ℝ), 4] = 25 := by norm_num [norm2]
    rw [h2]
    positivity)

/-- Claim C10: `fit` mutates its argument `X` in place (modelled here by
the returned post-state of the array): under the `ip` metric, row `i`
becomes the row (overwritten by the constant `1/sqrt(dim)` when its norm is
zero) divided by its L2 norm; under the `l2` metric `X` is unchanged. -/
theorem fit_mutates_X (s : Vsag) (X : List (List ℝ)) (i : Nat)
    (hi : i < X.length) :
    (s.fit X).2.length = X.length ∧
    (s._metric = "ip" →
      (s.fit X).2[i]? =
        some (normalizeRow (zeroFix (X.headD []).length X[i]))) ∧
    (s._metric = "l2" → (s.fit X).2 = X) := by
  refine ⟨fitTransform_length _ _ _, ?_, ?_⟩
  · intro hm
    show (fitTransform s._metric (X.headD []).length X)[i]? = _
    unfold fitTransform
    rw [if_pos hm]
    rw [List.getElem?_map, List.getElem?_map, List.getElem?_eq_getElem hi]
    rfl
  · intro hm
    show fitTransform s._metric (X.headD []).length X = X
    unfold fitTransform
    rw [hm]
    simp

/-- Witness for C10 at the one-row zero matrix under the `ip` metric. -/
theorem fit_mutates_X_witness :
    (vsagIp.fit [[0, 0]]).2[0]? =
      some (normalizeRow (zeroFix 2 [(0 : ℝ), 0])) :=
  (fit_mutates_X vsagIp [[0, 0]] 0 (by decide)).2.1 rfl

/-- Claim C3: the config JSON `fit` passes to `pyvsag.Index` contains
exactly the fields dtype, metric_type (one of l2/ip), dim = len(X[0]) and
hnsw.{max_degree, ef_construction}; it has no quantization field, and the
stored sq value (and the a/rs values) never influence it. -/
theorem fit_config_exact (s : Vsag) (X : List (List ℝ)) (hne : X ≠ [])
    (sq' : Int) (a' : ℚ) (rs' : Int) :
    (s.fit X).1._index = some (s.builtOf X) ∧
    (s.builtOf X).config = s.index_params (X.head hne).length ∧
    jsonKeys ((s.builtOf X).config) = ["dtype", "metric_type", "dim", "hnsw"] ∧
    jsonGet ((s.builtOf X).config) "dtype" = some (.str "float32") ∧
    (jsonGet ((s.builtOf X).config) "metric_type" = some (.str "l2") ∨
     jsonGet ((s.builtOf X).config) "metric_type" = some (.str "ip")) ∧
    jsonGet ((s.builtOf X).config) "dim" =
      some (.int (Int.ofNat (X.head hne).length)) ∧
    jsonGet ((s.builtOf X).config) "hnsw" =
      some (.obj [("max_degree", .int s._params.M),
                  ("ef_construction", .int s._params.efc)]) ∧
    jsonGet ((s.builtOf X).config) "quantization" = none ∧
    Vsag.index_params
      { s with _params := { s._params with sq := sq', a := a', rs := rs' } }
      (X.head hne).length = s.index_params (X.head hne).length := by
  have hhead : (X.headD []).length = (X.head hne).length := by
    cases X with
    | nil => exact absurd rfl hne
    | cons x xs => rfl
  refine ⟨rfl, ?_, ?_, ?_, ?_, ?_, ?_, ?_, rfl⟩
  · show s.index_params (X.headD []).length = _
    rw [hhead]
  · show jsonKeys (s.index_params (X.headD []).length) = _
    simp [jsonKeys, Vsag.index_params]
  · show jsonGet (s.index_params (X.headD []).length) "dtype" = _
    simp [jsonGet, Vsag.index_params, List.lookup]
  · by_cases hm : s._metric = "l2"
    · left
      show jsonGet (s.index_params (X.headD []).length) "metric_type" = _
      simp [jsonGet, Vsag.index_params, List.lookup, hm]
    · right
      show jsonGet (s.index_params (X.headD []).length) "metric_type" = _
      simp [jsonGet, Vsag.index_params, List.lookup, hm]
  · show jsonGet (s.index_params (X.headD []).length) "dim" = _
    rw [hhead]
    simp [jsonGet, Vsag.index_params, List.lookup]
  · show jsonGet (s.index_params (X.headD []).length) "hnsw" = _
    simp [jsonGet, Vsag.index_params, List.lookup]
  · show jsonGet (s.index_params (X.headD []).length) "quantization" = _
    simp [jsonGet, Vsag.index_params, List.lookup]

/-- Witness for C3 at a concrete state and one-row matrix. -/
theorem fit_config_exact_witness :
    jsonKeys ((vsagIp.builtOf [[0, 0]]).config) =
      ["dtype", "metric_type", "dim", "hnsw"] ∧
    jsonGet ((vsagIp.builtOf [[0, 0]]).config) "quantization" = none :=
  ⟨(fit_config_exact vsagIp [[0, 0]] (by simp) 5 2 3).2.2.1,
   (fit_config_exact vsagIp [[0, 0]] (by simp) 5 2 3).2.2.2.2.2.2.2.1⟩

/-- Claim C9: `__init__` raises KeyError for every metric other than
"euclidean" or "angular", raises KeyError whenever `method_param` lacks
"M", "ef_construction" or "use_int8", and completes without error when the
metric is known and all three keys are present. -/
theorem init_keyError (metric : String) (dim : Int) (mp : MethodParam) :
    ((metric ≠ "euclidean" ∧ metric ≠ "angular") →
      Vsag.init metric dim mp = Except.error PyError.keyError) ∧
    ((mp.M = none ∨ mp.ef_construction = none ∨ mp.use_int8 = none) →
      Vsag.init metric dim mp = Except.error PyError.keyError) ∧
    ((metric = "euclidean" ∨ metric = "angular") → mp.M ≠ none →
      mp.ef_construction ≠ none → mp.use_int8 ≠ none →
      ∃ st, Vsag.init metric dim mp = Except.ok st) := by
  have hmm : ∀ (h1 : metric ≠ "euclidean") (h2 : metric ≠ "angular"),
      metricMap metric = none := by
    intro h1 h2
    unfold metricMap
    rw [if_neg h1, if_neg h2]
  refine ⟨?_, ?_, ?_⟩
  · rintro ⟨h1, h2⟩
    unfold Vsag.init
    rw [hmm h1 h2]
    rfl
  · intro h
    cases hm2 : metricMap metric with
    | none =>
        unfold Vsag.init
        rw [hm2]
        rfl
    | some m =>
        rcases h with hM | hefc | hu8
        · unfold Vsag.init
          rw [hm2, hM]
          rfl
        · cases hM : mp.M with
          | none =>
              unfold Vsag.init
              rw [hm2, hM]
              rfl
          | some Mv =>
              unfold Vsag.init
              rw [hm2, hM, hefc]
              rfl
        · cases hM : mp.M with
          | none =>
              unfold Vsag.init
              rw [hm2, hM]
              rfl
          | some Mv =>
              cases hefc : mp.ef_construction with
              | none =>
                  unfold Vsag.init
                  rw [hm2, hM, hefc]
                  rfl
              | some ev =>
                  unfold Vsag.init
                  rw [hm2, hM, hefc, hu8]
                  rfl
  · intro hm hM hefc hu8
    obtain ⟨m, hm2⟩ : ∃ m, metricMap metric = some m := by
      rcases hm with h | h <;> subst h <;> exact ⟨_, rfl⟩
    obtain ⟨Mv, hM2⟩ := Option.ne_none_iff_exists'.mp hM
    obtain ⟨ev, hefc2⟩ := Option.ne_none_iff_exists'.mp hefc
    obtain ⟨uv, hu82⟩ := Option.ne_none_iff_exists'.mp hu8
    unfold Vsag.init
    rw [hm2, hM2, hefc2, hu82]
    exact ⟨_, rfl⟩

/-- Witness for C9: the unknown metric string "cosine" raises KeyError. -/
theorem init_keyError_witness :
    Vsag.init "cosine" 8 mpFull = Except.error PyError.keyError :=
  (init_keyError "cosine" 8 mpFull).1 ⟨by decide, by decide⟩

/-- Counterexample to claim C5 as stated: straight after `__init__` — the
reachable state in which `set_query_arguments` has never been called —
`_ef` is 0, so the search-params JSON `query` hands to `knn_search` carries
ef_search = 0, which is not positive. -/
theorem query_ef_search_zero_counterexample :
    (Vsag.init "euclidean" 10 mpFull).map (fun st => search_params st._ef) =
      Except.ok (JsonVal.obj
        [("hnsw", JsonVal.obj [("ef_search", JsonVal.int 0)])]) ∧
    ¬ (0 : Int) > 0 := by
  exact ⟨rfl, by decide⟩

/-- Claim C5 (amended): the ef_search value embedded in the search-params
JSON `query` passes to `knn_search` always equals the adapter's current
`_ef`: it is 0 straight after construction (before any
`set_query_arguments` call), `fit` leaves it unchanged, and after
`set_query_arguments ef` it equals `ef` — hence it is positive exactly when
the most recent `set_query_arguments` call supplied a positive `ef`, and
not in the freshly constructed state. -/
theorem query_ef_search_amended (s : Vsag) (ef : Int) (X : List (List ℝ))
    (metric : String) (dim : Int) (mp : MethodParam) (st : Vsag)
    (hef : 0 < ef) (hinit : Vsag.init metric dim mp = Except.ok st) :
    search_params (s.set_query_arguments ef)._ef =
      JsonVal.obj [("hnsw", JsonVal.obj [("ef_search", JsonVal.int ef)])] ∧
    0 < (s.set_query_arguments ef)._ef ∧
    (s.fit X).1._ef = s._ef ∧
    st._ef = 0 := by
  refine ⟨rfl, hef, rfl, ?_⟩
  unfold Vsag.init at hinit
  cases hm2 : metricMap metric with
  | none =>
      rw [hm2] at hinit
      injection hinit
  | some m =>
      rw [hm2] at hinit
      cases hM : mp.M with
      | none =>
          rw [hM] at hinit
          injection hinit
      | some Mv =>
          rw [hM] at hinit
          cases hefc : mp.ef_construction with
          | none =>
              rw [hefc] at hinit
              injection hinit
          | some ev =>
              rw [hefc] at hinit
              cases hu8 : mp.use_int8 with
              | none =>
                  rw [hu8] at hinit
                  injection hinit
              | some uv =>
                  rw [hu8] at hinit
                  injection hinit with h
                  rw [← h]

/-- Witness for the amended C5 at ef = 7 and the concrete init state. -/
theorem query_ef_search_amended_witness :
    search_params (vsagL2.set_query_arguments 7)._ef =
      JsonVal.obj [("hnsw", JsonVal.obj [("ef_search", JsonVal.int 7)])] ∧
    0 < (vsagL2.set_query_arguments 7)._ef ∧
    (vsagL2.fit [[1, 0]]).1._ef = vsagL2._ef ∧
    vsagL2._ef = 0 :=
  query_ef_search_amended vsagL2 7 [[1, 0]] "euclidean" 10 mpFull vsagL2
    (by decide) rfl
